import Mathlib

/-!
Verification of the Run Configuration & Relationship Propagation Engine of the
`open-datakit/cli` repository (`cli/main.py`), against its natural-language
specification.

The CLI itself (`cli/main.py`) is embedded faithfully below.  The persistence
helpers it imports from the `opendatapy` package (`load_run_configuration`,
`write_run_configuration`, `load_variable`, `load_resource_by_variable`,
`write_resource`, `find`, `find_by_name`, `get_algorithm_name`, ...) are not
part of this repository's sources; they are modelled from the specification's
description of the Persistence Layer and Data Model (spec sections 2, 4.1
and 6): they read and write the on-disk JSON representations, and lookup of a
variable or resource by name fails with `NotFoundError` when absent.

Modelling conventions:
* The on-disk package state is a record `PkgState` of the persisted files.
* Each CLI operation is a function `PkgState -> ... -> Outcome`, where
  `Outcome` carries the state of the package when the operation finished,
  plus `some e` when the operation terminated with an error (a red-message
  `exit(1)` or an uncaught Python exception).  Errors raised before any write
  leave the state unchanged.
* Python dict values are modelled by `PyVal`; dict keys that may be absent
  are `Option` fields.  Loading a configuration from disk yields a fresh
  value (as `json.load` does): mutating a loaded copy does not change the
  persisted state unless it is explicitly written back.
* A resource file and a run-configuration file are stored under the name they
  carry, so the store of resources of a run is an association list keyed by
  resource name, and run configurations are keyed by their `name` field.
-/

namespace ODS

/-- A scalar Python value as it appears in the JSON files: strings, integers,
booleans and `None`/`null`.  (Float literals are not needed by any claim and
are not modelled.) -/
inductive PyVal where
  | str (s : String)
  | int (n : Int)
  | bool (b : Bool)
  | none
deriving DecidableEq

/-- The `data` payload of a resource file: either a parameter table (rows
keyed by parameter name, holding the `init` column value, cf. spec section 3)
or an opaque tabular payload. -/
inductive ResData where
  | table (rows : List (String × PyVal))
  | raw (v : PyVal)
deriving DecidableEq

/-- A resource file's content (spec section 6).  The resource's `name` is the
key under which it is stored in the run's resource directory. -/
structure Resource where
  profile : String
  schema : PyVal
  data : ResData
deriving DecidableEq

/-- A variable instance inside a run configuration's `data` payload.
Optional fields model dict keys that may be absent. -/
structure VarInst where
  name : String
  value : Option PyVal
  disabled : Option Bool
  metaschema : Option PyVal
  resource : Option String
deriving DecidableEq

/-- A run configuration file (spec section 6). -/
structure RunConfig where
  name : String
  title : String
  profile : String
  algorithm : String
  container : String
  inputs : List VarInst
  outputs : List VarInst
deriving DecidableEq

/-- A target of a relationship rule (spec section 6).  `disabled.isSome`
models the Python test `"disabled" in target`. -/
structure Target where
  name : String
  type : String
  value : Option PyVal
  metaschema : Option PyVal
  disabled : Option Bool
  schema : Option PyVal
  data : Option ResData
deriving DecidableEq

/-- A relationship rule (spec section 6). -/
structure Rule where
  type : String
  values : List PyVal
  targets : List Target
deriving DecidableEq

/-- A relationship declaration for one source variable (spec section 6). -/
structure Relationship where
  source : String
  rules : List Rule
deriving DecidableEq

/-- A variable declaration in an algorithm signature.  `enum` is the list of
the entries' `value` fields; the empty list models both an absent `enum` key
and an empty one (both are falsy for `signature.get("enum", False)`).
`defaultFields` is the dict splatted into the variable instance at `init`. -/
structure VarSig where
  name : String
  type : String
  null : Bool
  enum : List PyVal
  profile : Option String
  defaultFields : VarInst
deriving DecidableEq

/-- An algorithm definition file (the parts the CLI reads). -/
structure AlgorithmDef where
  container : String
  inputs : List VarSig
  outputs : List VarSig
deriving DecidableEq

/-- The store of resource files of one run: an association list keyed by
resource name. -/
abbrev ResStore := List (String × Resource)

/-- The persisted state of a data package (spec section 6): the package
configuration's `algorithms` and `runs` lists, the algorithm definition files
and relationship files (keyed by algorithm name), the existing run
directories, the run configuration files (each stored under its `name`), the
resource files of each run (keyed by run name), and the CLI-local `.opends`
config holding the active run. -/
structure PkgState where
  algorithms : List String
  runs : List String
  algorithmDefs : List (String × AlgorithmDef)
  relFiles : List (String × List Relationship)
  resourceDefs : List (String × Resource)
  runDirs : List String
  runConfigs : List RunConfig
  resources : List (String × ResStore)
  cliConfig : Option String
deriving DecidableEq

/-- The ways an operation can terminate abnormally: the spec's error kinds
(section 7) as realised by the CLI's red-message `exit(1)` calls, plus the
uncaught Python exceptions the code can raise. -/
inductive Err where
  | invalidRunName
  | unknownAlgorithm
  | alreadyExists
  | fileNotFound
  | notFound
  | keyError
  | typeError
  | typeMismatch
  | constraintViol
  | nullViolation
  | synError
  | valueError
  | notImplemented
  | invalidParamRef
  | indexError
  | noActiveRun
  | useLoadCmd
  | useSetParamCmd
  | notParamResource
  | paramResourceEmpty
deriving DecidableEq

/-- Result of one CLI operation: the error it terminated with (if any) and
the package state at termination. -/
structure Outcome where
  err : Option Err
  state : PkgState
deriving DecidableEq

/-- Decidable equality for `Except` results (used to evaluate the claims on
concrete inputs). -/
instance exceptDecEq {α β : Type} [DecidableEq α] [DecidableEq β] :
    DecidableEq (Except α β) := fun x y =>
  match x, y with
  | .ok a, .ok b =>
    if h : a = b then .isTrue (by rw [h]) else .isFalse (by simp [h])
  | .error a, .error b =>
    if h : a = b then .isTrue (by rw [h]) else .isFalse (by simp [h])
  | .ok _, .error _ => .isFalse (by simp)
  | .error _, .ok _ => .isFalse (by simp)

/-- Modelled from the spec: `opendatapy.helpers.find` — find the first dict
in an array whose `source` key equals the given value, `None` when absent
(spec 4.2: locate the single Relationship whose `source` equals the name). -/
def find (rels : List Relationship) (source : String) : Option Relationship :=
  rels.find? (fun r => r.source = source)

/-- Modelled from the spec: `opendatapy.helpers.find_by_name` — find the
first dict in an array whose `name` key equals the given name. -/
def find_by_name (vars : List VarInst) (name : String) : Option VarInst :=
  vars.find? (fun v => v.name = name)

/-- Modelled from the spec: `opendatapy.datapackage.get_algorithm_name` — the
prefix of a run name before the dot is the owning algorithm name (spec 6). -/
def get_algorithm_name (run_name : String) : String :=
  String.mk (run_name.toList.takeWhile (fun c => c ≠ '.'))

/-- Association-list lookup by key (first match), used for the stores keyed
by name. -/
def alGet {α : Type} (l : List (String × α)) (k : String) : Option α :=
  (l.find? (fun e => e.1 = k)).map (fun e => e.2)

/-- Modelled from the spec: `load_run_configuration` reads the run
configuration file of the named run (stored under its `name` field). -/
def load_run_configuration (st : PkgState) (run_name : String) : Option RunConfig :=
  st.runConfigs.find? (fun c => c.name = run_name)

/-- Modelled from the spec: `write_run_configuration` persists a run
configuration under its `name` (replacing the existing file, or creating
it). -/
def writeCfgList (l : List RunConfig) (run : RunConfig) : List RunConfig :=
  if l.any (fun c => c.name = run.name) then
    l.map (fun c => if c.name = run.name then run else c)
  else l ++ [run]

/-- Modelled from the spec: `write_run_configuration` on the package state. -/
def write_run_configuration (st : PkgState) (run : RunConfig) : PkgState :=
  { st with runConfigs := writeCfgList st.runConfigs run }

/-- Looking a variable up in a loaded run configuration: a missing
configuration file is a `FileNotFoundError`, a missing variable a
`NotFoundError` (spec 4.1). -/
def pLoadVar (cfgO : Option RunConfig) (name : String) : Except Err VarInst :=
  match cfgO with
  | Option.none => .error .fileNotFound
  | Option.some run =>
    match find_by_name (run.inputs ++ run.outputs) name with
    | Option.none => .error .notFound
    | Option.some v => .ok v

/-- Reading the `value` key of a variable looked up in a loaded run
configuration; a missing key is a Python `KeyError`. -/
def pLoadVarValue (cfgO : Option RunConfig) (name : String) : Except Err PyVal :=
  match pLoadVar cfgO name with
  | .error e => .error e
  | .ok v =>
    match v.value with
    | Option.none => .error .keyError
    | Option.some x => .ok x

/-- Resolving the resource name referenced by a variable of a loaded run
configuration. -/
def pResolveRes (cfgO : Option RunConfig) (name : String) : Except Err String :=
  match pLoadVar cfgO name with
  | .error e => .error e
  | .ok v =>
    match v.resource with
    | Option.none => .error .keyError
    | Option.some ref => .ok ref

/-- Modelled from the spec: `load_variable` re-reads the run configuration
file and looks the variable up by name in `inputs + outputs`, failing with
`NotFoundError` when absent (spec 4.1).  The returned value is a fresh copy:
mutating it does not change the persisted run configuration. -/
def load_variable (st : PkgState) (run_name name : String) : Except Err VarInst :=
  pLoadVar (load_run_configuration st run_name) name

/-- `load_variable(...)["value"]`: reading the `value` key of a loaded
variable; a missing key is a Python `KeyError`. -/
def load_variable_value (st : PkgState) (run_name name : String) : Except Err PyVal :=
  pLoadVarValue (load_run_configuration st run_name) name

/-- The resource store of a run (its `resources/` directory); an absent
directory is read as empty. -/
def resStoreOf (st : PkgState) (run_name : String) : ResStore :=
  (alGet st.resources run_name).getD []

/-- Modelled from the spec: `load_resource_by_variable` resolves the target
variable by name in the run configuration, then loads the resource file it
references, failing with `NotFoundError` when either is absent (spec 4.1).
Returns the resource name together with the file's content. -/
def load_resource_by_variable (st : PkgState) (run_name name : String) :
    Except Err (String × Resource) :=
  match pResolveRes (load_run_configuration st run_name) name with
  | .error e => .error e
  | .ok ref =>
    match (resStoreOf st run_name).find? (fun e => e.1 = ref) with
    | Option.none => .error .notFound
    | Option.some e => .ok (ref, e.2)

/-- Replace the content of the named resource file in a store (all entries
with that key; a well-formed directory has at most one). -/
def resWriteInner (k : String) (r : Resource) (store : ResStore) : ResStore :=
  store.map (fun e => if e.1 = k then (e.1, r) else e)

/-- Update the resource store of the named run in place. -/
def outerUpd (run_name : String) (f : ResStore → ResStore)
    (rs : List (String × ResStore)) : List (String × ResStore) :=
  rs.map (fun e => if e.1 = run_name then (e.1, f e.2) else e)

/-- Modelled from the spec: `write_resource` persists the resource file under
its name in the run's resource directory.  It is only ever called on a
resource that was just loaded, so the run's directory and the file exist. -/
def write_resource (st : PkgState) (run_name k : String) (r : Resource) : PkgState :=
  { st with resources := outerUpd run_name (resWriteInner k r) st.resources }

/-- One rule target, as applied by `execute_relationship` (main.py lines
172-224).  If the target spec carries `disabled`, the code loads the target
variable and sets `disabled` on that loaded copy — which is never written
back, so the persisted run configuration is not changed by it.  A
`resource`-type target loads the referenced resource, replaces its `data`
and/or `schema` when supplied, and writes the file back.  A `value`-type
target loads the target variable and sets `value`/`metaschema` on the loaded
copy — again never written back.  Any other target type raises
`NotImplementedError`. -/
def applyTarget (rn rName : String) (t : Target) (st : PkgState) : Outcome :=
  match (if t.disabled.isSome then (load_variable st rn t.name).map Option.some
         else .ok Option.none) with
  | .error e => ⟨some e, st⟩
  | .ok dv =>
    -- target_variable["disabled"] = target["disabled"] mutates the transient
    -- copy `dv` only; it is dropped here exactly as the source drops it.
    let _dropped : Option VarInst := dv.map (fun tv => { tv with disabled := t.disabled })
    if t.type = "resource" then
      match load_resource_by_variable st rName t.name with
      | .error e => ⟨some e, st⟩
      | .ok kr =>
        let r' : Resource :=
          { kr.2 with data := t.data.getD kr.2.data, schema := t.schema.getD kr.2.schema }
        ⟨none, write_resource st rName kr.1 r'⟩
    else if t.type = "value" then
      match load_variable st rn t.name with
      | .error e => ⟨some e, st⟩
      | .ok tv =>
        -- value / metaschema are set on the transient copy `tv` and dropped,
        -- exactly as the source never writes the mutated dict back.
        let _dropped2 : VarInst :=
          { tv with value := if t.value.isSome then t.value else tv.value,
                    metaschema := if t.metaschema.isSome then t.metaschema else tv.metaschema }
        ⟨none, st⟩
    else ⟨some .notImplemented, st⟩

/-- The targets of a triggered rule, applied in declared order; the first
error aborts the loop (keeping the writes already made). -/
def processTargets (rn rName : String) : List Target → PkgState → Outcome
  | [], st => ⟨none, st⟩
  | t :: ts, st =>
    match applyTarget rn rName t st with
    | ⟨some e, st'⟩ => ⟨some e, st'⟩
    | ⟨none, st'⟩ => processTargets rn rName ts st'

/-- The rules of a relationship, in declaration order (main.py lines
158-227): a non-`value` rule raises `NotImplementedError`; a `value` rule
re-reads the source variable's current value from disk and, when it is a
member of the rule's trigger values, applies every target. -/
def processRules (rn rName vn : String) : List Rule → PkgState → Outcome
  | [], st => ⟨none, st⟩
  | r :: rs, st =>
    if r.type = "value" then
      match load_variable_value st rn vn with
      | .error e => ⟨some e, st⟩
      | .ok v =>
        if v ∈ r.values then
          match processTargets rn rName r.targets st with
          | ⟨some e, st'⟩ => ⟨some e, st'⟩
          | ⟨none, st'⟩ => processRules rn rName vn rs st'
        else processRules rn rName vn rs st
    else ⟨some .notImplemented, st⟩

/-- `execute_relationship(run_name, variable_name)` (main.py lines 140-230):
load the run configuration, open the algorithm's relationships file, locate
the relationship whose `source` is the variable (`find` returns `None` when
absent, and the unguarded `relationship["rules"]` subscript then raises a
`TypeError`), apply the rules, and finally re-write the loaded run
configuration. -/
def execute_relationship (st : PkgState) (run_name variable_name : String) : Outcome :=
  match load_run_configuration st run_name with
  | Option.none => ⟨some .fileNotFound, st⟩
  | Option.some run =>
    match alGet st.relFiles (get_algorithm_name run_name) with
    | Option.none => ⟨some .fileNotFound, st⟩
    | Option.some rels =>
      match find rels variable_name with
      | Option.none => ⟨some .typeError, st⟩
      | Option.some rel =>
        match processRules run_name run.name variable_name rel.rules st with
        | ⟨some e, st'⟩ => ⟨some e, st'⟩
        | ⟨none, st'⟩ => ⟨none, write_run_configuration st' run⟩

/-! ### Run name validation and the lifecycle commands -/

/-- A character of the class `[a-zA-Z0-9_]` (ASCII, as in Python `re`). -/
def isWordChar (c : Char) : Bool :=
  c.isAlpha || c.isDigit || c = '_'

/-- Split a character list at every dot (the groups between the dots, like
Python's `str.split(".")`). -/
def splitDots : List Char → List (List Char)
  | [] => [[]]
  | c :: rest =>
    match splitDots rest with
    | [] => []
    | g :: gs => if c = '.' then [] :: g :: gs else (c :: g) :: gs

/-- The language of the regular expression `^[a-zA-Z0-9_]+\.[a-zA-Z0-9_]+$`
on character lists with strict anchors: two nonempty words joined by a
single dot. -/
def runNameChars (cs : List Char) : Bool :=
  match splitDots cs with
  | [a, b] => !a.isEmpty && a.all isWordChar && !b.isEmpty && b.all isWordChar
  | _ => false

/-- The spec's naming rule (section 6) taken literally: the run name matches
`^[a-zA-Z0-9_]+\.[a-zA-Z0-9_]+$` with `$` meaning the very end of the
string. -/
def runNameRegexStrict (s : String) : Bool :=
  runNameChars s.toList

/-- `re.match(r"^([a-zA-Z0-9_]+)\.([a-zA-Z0-9_]+)$", s)` as Python evaluates
it (main.py line 109): in Python, `$` matches at the end of the string or
just before a single newline at the end, so a name with one trailing newline
is also accepted. -/
def pyRunNameMatch (s : String) : Bool :=
  runNameChars s.toList ||
    (s.toList.getLast? = some '\n' && runNameChars s.toList.dropLast)

/-- `get_default_algorithm` (main.py lines 72-76): the first entry of the
package's `algorithms` list (`IndexError` when empty). -/
def get_default_algorithm (st : PkgState) : Except Err String :=
  match st.algorithms with
  | [] => .error .indexError
  | a :: _ => .ok a

/-- `get_full_run_name` (main.py lines 105-137): an explicitly supplied run
name must match the run-name pattern and its prefix algorithm must be
declared in the package; the validated name gets the `.run` extension.  With
no name supplied, the default algorithm's name is used unvalidated. -/
def get_full_run_name (st : PkgState) (arg : Option String) : Except Err String :=
  match arg with
  | Option.some rn =>
    if pyRunNameMatch rn then
      if get_algorithm_name rn ∈ st.algorithms then .ok (rn ++ ".run")
      else .error .unknownAlgorithm
    else .error .invalidRunName
  | Option.none => (get_default_algorithm st).map (fun a => a ++ ".run")

/-- `write_config` (main.py lines 93-96): persist the active run name in the
CLI config file. -/
def write_config (st : PkgState) (run_name : String) : PkgState :=
  { st with cliConfig := some run_name }

/-- The default variable instance materialized from a signature declaration:
the variable's name together with the splatted `default` dict. -/
def sigDefault (v : VarSig) : VarInst :=
  { v.defaultFields with name := v.name }

/-- Replace-or-append into a resource store. -/
def alSetRes (store : ResStore) (k : String) (r : Resource) : ResStore :=
  if store.any (fun e => e.1 = k) then resWriteInner k r store else store ++ [(k, r)]

/-- Create or update the resource file `k` of the named run (creating the
run's store when absent). -/
def addResource (st : PkgState) (run_name k : String) (r : Resource) : PkgState :=
  if st.resources.any (fun e => e.1 = run_name) then
    { st with resources :=
        st.resources.map (fun e => if e.1 = run_name then (e.1, alSetRes e.2 k r) else e) }
  else { st with resources := st.resources ++ [(run_name, [(k, r)])] }

/-- Modelled from the spec: `init_resource` materializes the named resource
file of the run from its package-level definition (spec 4.3: initialization
materializes default Resource instances). -/
def init_resource (st : PkgState) (run_name res_name : String) : Outcome :=
  match alGet st.resourceDefs res_name with
  | Option.none => ⟨some .fileNotFound, st⟩
  | Option.some r => ⟨none, addResource st run_name res_name r⟩

/-- The per-signature-variable resource initialization loop of `init`
(main.py lines 279-319): every `resource`-typed variable gets its default
resource initialised. -/
def initVarResources (run_name : String) : List VarSig → PkgState → Outcome
  | [], st => ⟨none, st⟩
  | v :: vs, st =>
    if v.type = "resource" then
      match v.defaultFields.resource with
      | Option.none => ⟨some .keyError, st⟩
      | Option.some res_name =>
        match init_resource st run_name res_name with
        | ⟨some e, st'⟩ => ⟨some e, st'⟩
        | ⟨none, st'⟩ => initVarResources run_name vs st'
    else initVarResources run_name vs st

/-- `init` (main.py lines 236-332): validate the run name, refuse when the
run directory already exists, create the run directory, materialize the
default run configuration and resources from the algorithm's signature,
record the run in the package configuration and make it the active run. -/
def init (st : PkgState) (arg : Option String) : Outcome :=
  match get_full_run_name st arg with
  | .error e => ⟨some e, st⟩
  | .ok run_name =>
    if run_name ∈ st.runDirs then ⟨some .alreadyExists, st⟩
    else
      let st1 := { st with runDirs := st.runDirs ++ [run_name] }
      let algorithm_name := get_algorithm_name run_name
      match alGet st1.algorithmDefs algorithm_name with
      | Option.none => ⟨some .fileNotFound, st1⟩
      | Option.some algo =>
        let run0 : RunConfig :=
          { name := run_name
            title := "Run configuration for " ++ algorithm_name
            profile := "opends-run"
            algorithm := algorithm_name
            container := algo.container
            inputs := algo.inputs.map sigDefault
            outputs := algo.outputs.map sigDefault }
        match initVarResources run_name (algo.inputs ++ algo.outputs) st1 with
        | ⟨some e, st2⟩ => ⟨some e, st2⟩
        | ⟨none, st2⟩ =>
          let st3 := write_run_configuration st2 run0
          let st4 := { st3 with runs := st3.runs ++ [run_name] }
          ⟨none, write_config st4 run_name⟩

/-- `set_run` (main.py lines 335-349): validate the name; when the run
directory exists, record it as the active run; otherwise print an error
message and return without touching any state (note: no `exit(1)` here). -/
def set_run (st : PkgState) (arg : Option String) : Outcome :=
  match get_full_run_name st arg with
  | .error e => ⟨some e, st⟩
  | .ok run_name =>
    if run_name ∈ st.runDirs then ⟨none, write_config st run_name⟩
    else ⟨none, st⟩

/-! ### Value parsing and the `set` command -/

/-- A Python runtime type, as produced by `type(value)` on a parsed CLI
value. -/
inductive PyType where
  | str
  | bool
  | int
  | noneType
deriving DecidableEq

/-- `type(value)` for the modelled values. -/
def pyTypeOf : PyVal → PyType
  | .str _ => .str
  | .bool _ => .bool
  | .int _ => .int
  | .none => .noneType

/-- What `type_map.get(declared_type, False)` evaluates to: a plain type
object, the union object `float | int` (for `"number"`), or the fallback
`False`. -/
inductive PyTypeObj where
  | ty (t : PyType)
  | unionNum
  | falseVal
deriving DecidableEq

/-- The CLI's `type_map` lookup with its `False` fallback (main.py lines
656-672). -/
def typeMapGet (t : String) : PyTypeObj :=
  if t = "string" then .ty .str
  else if t = "boolean" then .ty .bool
  else if t = "number" then .unionNum
  else .falseVal

/-- Python's `type_map.get(...) != type(value)` comparison: a plain type
object is unequal exactly to a different type; the union object
`float | int` compares unequal to every plain type (a `types.UnionType` is
never `==` to a single type in Python ≥ 3.10), and so does the `False`
fallback.  Consequently the comparison rejects every value whenever the
declared type is `number`. -/
def typeNe (o : PyTypeObj) (t : PyType) : Bool :=
  match o with
  | .ty u => u ≠ t
  | .unionNum => true
  | .falseVal => true

/-- Python truthiness of the modelled values (`if not variable_value`). -/
def pyTruthy : PyVal → Bool
  | .str s => !s.toList.isEmpty
  | .int n => n ≠ 0
  | .bool b => b
  | .none => false

/-- Python truthiness of a loaded tabular resource (`if not resource`): a
resource is falsy when its data payload is empty. -/
def resTruthy (r : Resource) : Bool :=
  match r.data with
  | .table rows => !rows.isEmpty
  | .raw v => pyTruthy v

/-- A decimal integer literal (optionally with a leading minus sign). -/
def isIntString (s : String) : Bool :=
  match s.toList with
  | [] => false
  | '-' :: ds => !ds.isEmpty && ds.all Char.isDigit
  | ds => !ds.isEmpty && ds.all Char.isDigit

/-- A bare Python identifier. -/
def isIdentString (s : String) : Bool :=
  match s.toList with
  | [] => false
  | c :: cs => (c.isAlpha || c = '_') && cs.all (fun d => d.isAlphanum || d = '_')

/-- A double-quoted string literal. -/
def isQuotedString (s : String) : Bool :=
  match s.toList with
  | '"' :: rest => !rest.isEmpty && rest.getLast? = some '"'
  | _ => false

/-- The numeric value of a list of decimal digits. -/
def digitsToNat (ds : List Char) : Nat :=
  ds.foldl (fun n c => n * 10 + (c.toNat - '0'.toNat)) 0

/-- The integer value of a decimal literal (possibly with a leading minus
sign). -/
def strToInt (s : String) : Int :=
  match s.toList with
  | '-' :: ds => -(digitsToNat ds : Int)
  | ds => (digitsToNat ds : Int)

/-- Lowercase a string (`str.lower()` for the ASCII fragment). -/
def strLower (s : String) : String :=
  String.mk (s.toList.map Char.toLower)

/-- Modelled from the spec: the behaviour of `ast.literal_eval` on the
fragment of inputs the CLI's duck-typed value parsing meets (spec section 9:
best-effort string-to-type coercion).  `True`/`False`/`None`, integer
literals and quoted strings evaluate to their value; a bare identifier
parses but is not a literal, which raises `ValueError` (malformed node);
anything that does not parse as a single expression — e.g. two words
separated by a space — raises `SyntaxError`. -/
def literalEval (s : String) : Except Err PyVal :=
  if s = "True" then .ok (.bool true)
  else if s = "False" then .ok (.bool false)
  else if s = "None" then .ok .none
  else if isIntString s then .ok (.int (strToInt s))
  else if isQuotedString s then .ok (.str (String.mk (s.toList.drop 1).dropLast))
  else if isIdentString s then .error .valueError
  else .error .synError

/-- `dumb_str_to_type` (main.py lines 58-69): parse via `ast.literal_eval`;
only `ValueError` is caught (mapping `"true"`/`"false"` to booleans and
anything else to the raw string); a `SyntaxError` escapes the `except` clause
and propagates to the caller. -/
def dumb_str_to_type (s : String) : Except Err PyVal :=
  match literalEval s with
  | .ok v => .ok v
  | .error .valueError =>
    if strLower s = "true" then .ok (.bool true)
    else if strLower s = "false" then .ok (.bool false)
    else .ok (.str s)
  | .error e => .error e

/-- Modelled from the spec: `load_variable_signature` looks the variable's
declaration up in the run's algorithm signature, failing with
`NotFoundError` when absent (spec 4.1). -/
def load_variable_signature (st : PkgState) (run_name name : String) :
    Except Err VarSig :=
  match load_run_configuration st run_name with
  | Option.none => .error .fileNotFound
  | Option.some run =>
    match alGet st.algorithmDefs run.algorithm with
    | Option.none => .error .fileNotFound
    | Option.some algo =>
      match (algo.inputs ++ algo.outputs).find? (fun v => v.name = name) with
      | Option.none => .error .notFound
      | Option.some v => .ok v

/-- `show` (main.py lines 393-442): print a variable value.  Read-only; it
can still fail while loading, including a `KeyError` when a scalar variable
instance has no `value` key. -/
def show_cmd (st : PkgState) (variable_name : String) : Option Err :=
  match st.cliConfig with
  | Option.none => some .noActiveRun
  | Option.some run_name =>
    match load_variable_signature st run_name variable_name with
    | .error e => some e
    | .ok sig =>
      if sig.type = "resource" then
        match load_resource_by_variable st run_name variable_name with
        | .error e => some e
        | .ok _ => none
      else
        match load_variable st run_name variable_name with
        | .error e => some e
        | .ok v =>
          match v.value with
          | Option.none => some .keyError
          | Option.some _ => none

/-- Update the first variable with the given name in a list (the dict
`find_by_name` returns lives inside the run configuration, so assigning to
it updates the run in memory). -/
def updateVarValue : List VarInst → String → PyVal → List VarInst
  | [], _, _ => []
  | x :: xs, name, v =>
    if x.name = name then { x with value := some v } :: xs
    else x :: updateVarValue xs name v

/-- `find_by_name(run["data"]["inputs"] + run["data"]["outputs"], name)["value"] = v`:
the first match in the concatenation is mutated in place. -/
def setVarInRun (run : RunConfig) (name : String) (v : PyVal) : RunConfig :=
  if (find_by_name run.inputs name).isSome then
    { run with inputs := updateVarValue run.inputs name v }
  else { run with outputs := updateVarValue run.outputs name v }

/-- `set` (main.py lines 552-717): parse the raw value (an uncaught
`SyntaxError` terminates the command), then either set a parameter of a
parameter resource (dotted reference) or type-check and set a scalar
variable, write the run configuration, and run relationship propagation;
finally `show` the variable. -/
def set (st : PkgState) (variable_ref raw_value : String) : Outcome :=
  match st.cliConfig with
  | Option.none => ⟨some .noActiveRun, st⟩
  | Option.some run_name =>
    match dumb_str_to_type raw_value with
    | .error e => ⟨some e, st⟩
    | .ok variable_value =>
      if variable_ref.toList.contains '.' then
        if pyRunNameMatch variable_ref then
          let variable_name := String.mk (variable_ref.toList.takeWhile (fun c => c ≠ '.'))
          let param_name :=
            String.mk ((variable_ref.toList.dropWhile (fun c => c ≠ '.')).drop 1)
          match load_resource_by_variable st run_name variable_name with
          | .error e => ⟨some e, st⟩
          | .ok kr =>
            if kr.2.profile ≠ "parameter-tabular-data-resource" then
              ⟨some .notParamResource, st⟩
            else if ¬ resTruthy kr.2 then ⟨some .paramResourceEmpty, st⟩
            else
              match kr.2.data with
              | .table rows =>
                if rows.any (fun row => row.1 = param_name) then
                  let rows' := rows.map (fun row =>
                    if row.1 = param_name then (row.1, variable_value) else row)
                  let r' := { kr.2 with data := ResData.table rows' }
                  let st1 := write_resource st run_name kr.1 r'
                  ⟨show_cmd st1 variable_name, st1⟩
                else ⟨some .keyError, st⟩
              | .raw _ => ⟨some .keyError, st⟩
        else ⟨some .invalidParamRef, st⟩
      else
        let variable_name := variable_ref
        match load_variable_signature st run_name variable_name with
        | .error e => ⟨some e, st⟩
        | .ok sig =>
          if sig.profile = some "tabular-data-resource" then ⟨some .useLoadCmd, st⟩
          else if sig.profile = some "parameter-tabular-data-resource" then
            ⟨some .useSetParamCmd, st⟩
          else if typeNe (typeMapGet sig.type) (pyTypeOf variable_value) then
            ⟨some .typeMismatch, st⟩
          else if sig.enum ≠ [] ∧ variable_value ∉ sig.enum then
            ⟨some .constraintViol, st⟩
          else if !sig.null && !pyTruthy variable_value then ⟨some .nullViolation, st⟩
          else
            match load_run_configuration st run_name with
            | Option.none => ⟨some .fileNotFound, st⟩
            | Option.some run =>
              match find_by_name (run.inputs ++ run.outputs) variable_name with
              | Option.none => ⟨some .typeError, st⟩
              | Option.some _ =>
                let run' := setVarInRun run variable_name variable_value
                let st1 := write_run_configuration st run'
                match execute_relationship st1 run_name variable_name with
                | ⟨some e, st2⟩ => ⟨some e, st2⟩
                | ⟨none, st2⟩ => ⟨show_cmd st2 variable_name, st2⟩

/-- Whether a validation result accepted the input. -/
def exceptOk {α : Type} (r : Except Err α) : Bool :=
  match r with
  | .ok _ => true
  | .error _ => false

/-! ### Concrete package states used to evaluate the claims -/

/-- A variable instance holding a scalar value and an explicit
`disabled: false` key. -/
def scalarVar (n : String) (v : PyVal) : VarInst :=
  { name := n, value := some v, disabled := some false,
    metaschema := none, resource := none }

/-- The empty package state. -/
def emptyState : PkgState :=
  { algorithms := [], runs := [], algorithmDefs := [], relFiles := [],
    resourceDefs := [], runDirs := [], runConfigs := [], resources := [],
    cliConfig := none }

/-- The relationship of spec section 8's "Disabled propagation" property:
source `mode`, one `value` rule triggered by `"off"`, one `value`-type target
`threshold` carrying `disabled: true` and no new value. -/
def c1Relationship : Relationship :=
  { source := "mode"
    rules := [{ type := "value", values := [.str "off"],
                targets := [{ name := "threshold", type := "value",
                              value := none, metaschema := none,
                              disabled := some true, schema := none,
                              data := none }] }] }

/-- A run configuration in which `mode` has already been set to `"off"` and
`threshold` holds value `5` with `disabled: false`. -/
def c1Run : RunConfig :=
  { name := "alg.a.run", title := "t", profile := "opends-run",
    algorithm := "alg", container := "c",
    inputs := [scalarVar "mode" (.str "off"), scalarVar "threshold" (.int 5)],
    outputs := [] }

/-- Package state for claim C1. -/
def c1State : PkgState :=
  { emptyState with
    algorithms := ["alg"], runs := ["alg.a.run"],
    relFiles := [("alg", [c1Relationship])],
    runDirs := ["alg.a.run"], runConfigs := [c1Run],
    resources := [("alg.a.run", [])], cliConfig := some "alg.a.run" }

/-- Package state for claim C2: `mode` is `"off"`; variable `a` references
resource `r` (initially holding data `0`); the single triggered rule first
rewrites `r`'s data to `1` and then targets the nonexistent variable
`ghost`. -/
def c2State : PkgState :=
  { emptyState with
    algorithms := ["alg"], runs := ["alg.a.run"],
    relFiles := [("alg",
      [{ source := "mode"
         rules := [{ type := "value", values := [.str "off"],
                     targets :=
                       [{ name := "a", type := "resource", value := none,
                          metaschema := none, disabled := none,
                          schema := none, data := some (.raw (.int 1)) },
                        { name := "ghost", type := "value", value := some (.int 2),
                          metaschema := none, disabled := none,
                          schema := none, data := none }] }] }])],
    runDirs := ["alg.a.run"],
    runConfigs := [{ name := "alg.a.run", title := "t", profile := "opends-run",
                     algorithm := "alg", container := "c",
                     inputs := [scalarVar "mode" (.str "off"),
                                { name := "a", value := none, disabled := none,
                                  metaschema := none, resource := some "r" }],
                     outputs := [] }],
    resources := [("alg.a.run",
      [("r", { profile := "tabular-data-resource", schema := .none,
               data := .raw (.int 0) })])],
    cliConfig := some "alg.a.run" }

/-- The state claim C2's failed propagation leaves behind: identical to
`c2State` except that resource `r` now holds the first target's data `1`. -/
def c2StateAfter : PkgState :=
  { c2State with
    resources := [("alg.a.run",
      [("r", { profile := "tabular-data-resource", schema := .none,
               data := .raw (.int 1) })])] }

/-- Package state for claim C3: the algorithm's relationships file exists but
declares no relationship at all, so no relationship has source `mode`. -/
def c3State : PkgState :=
  { emptyState with
    algorithms := ["alg"], runs := ["alg.a.run"],
    relFiles := [("alg", [])],
    runDirs := ["alg.a.run"],
    runConfigs := [c1Run],
    resources := [("alg.a.run", [])], cliConfig := some "alg.a.run" }

/-- Package state for claim C4: the active run's algorithm declares a
nullable `number`-typed scalar input `x` (currently `1`). -/
def c4State : PkgState :=
  { emptyState with
    algorithms := ["alg"], runs := ["alg.a.run"],
    algorithmDefs := [("alg",
      { container := "c"
        inputs := [{ name := "x", type := "number", null := true, enum := [],
                     profile := none,
                     defaultFields := { name := "x", value := some (.int 1),
                                        disabled := none, metaschema := none,
                                        resource := none } }]
        outputs := [] })],
    runDirs := ["alg.a.run"],
    runConfigs := [{ name := "alg.a.run", title := "t", profile := "opends-run",
                     algorithm := "alg", container := "c",
                     inputs := [scalarVar "x" (.int 1)], outputs := [] }],
    resources := [("alg.a.run", [])], cliConfig := some "alg.a.run" }

/-- Package state for claim C6's witness: a non-nullable `number`-typed
scalar input `y`. -/
def c6State : PkgState :=
  { emptyState with
    algorithms := ["alg"], runs := ["alg.a.run"],
    algorithmDefs := [("alg",
      { container := "c"
        inputs := [{ name := "y", type := "number", null := false, enum := [],
                     profile := none,
                     defaultFields := { name := "y", value := some (.int 1),
                                        disabled := none, metaschema := none,
                                        resource := none } }]
        outputs := [] })],
    runDirs := ["alg.a.run"],
    runConfigs := [{ name := "alg.a.run", title := "t", profile := "opends-run",
                     algorithm := "alg", container := "c",
                     inputs := [scalarVar "y" (.int 1)], outputs := [] }],
    resources := [("alg.a.run", [])], cliConfig := some "alg.a.run" }

/-- Package state for claim C8's counterexample: the package declares the
algorithm `algo`. -/
def c8State : PkgState :=
  { emptyState with algorithms := ["algo"] }

/-- Package state for claim C9: only the active-run pointer is set; `set`
crashes while parsing its value before reading anything else. -/
def c9State : PkgState :=
  { emptyState with cliConfig := some "alg.a.run" }

/-- Package state for claim C7's witness: algorithm `algo` is declared and
run directory `algo.x.run` exists. -/
def c7State : PkgState :=
  { emptyState with algorithms := ["algo"], runDirs := ["algo.x.run"] }

/-- Package state for claim C10's witness: algorithm `algo` is declared, an
active run is recorded, and no run directory exists. -/
def c10State : PkgState :=
  { emptyState with algorithms := ["algo"], cliConfig := some "algo.old.run" }

/-! ### Update plans: a pure characterization of propagation's state effect

`execute_relationship` reads the run configuration, the relationships file
and the keys of the run's resource store, and writes resources.  The
definitions below compute the sequence of resource writes (the *plan*) and
the terminating error from those read-only inputs; the characterization
lemmas in the theorem section show `processTargets`/`processRules` equal the
plan applied to the state, which yields idempotence of propagation. -/

/-- The pure effect of one resource-target on a resource file: replace
`data` and/or `schema` when supplied, leave the rest untouched. -/
structure UpdPair where
  d : Option ResData
  s : Option PyVal
deriving DecidableEq

/-- Left-biased choice on `Option` (first writer wins when composing). -/
def oOr {α : Type} (a b : Option α) : Option α :=
  match a with
  | Option.some x => Option.some x
  | Option.none => b

/-- Apply an update pair to a resource. -/
def applyU (u : UpdPair) (r : Resource) : Resource :=
  { r with data := u.d.getD r.data, schema := u.s.getD r.schema }

/-- Composition of update pairs: `compU u2 u1` is `u1` followed by `u2`. -/
def compU (u2 u1 : UpdPair) : UpdPair :=
  ⟨oOr u2.d u1.d, oOr u2.s u1.s⟩

/-- Apply an update pair to the named resource of a store. -/
def innerApply (k : String) (u : UpdPair) (store : ResStore) : ResStore :=
  store.map (fun e => if e.1 = k then (e.1, applyU u e.2) else e)

/-- Apply a plan (a sequence of keyed updates) to a store, in order. -/
def innerApplyAll (ps : List (String × UpdPair)) (store : ResStore) : ResStore :=
  ps.foldl (fun acc p => innerApply p.1 p.2 acc) store

/-- The combined update a plan performs at one key (later writes win). -/
def squash : List (String × UpdPair) → String → UpdPair
  | [], _ => ⟨Option.none, Option.none⟩
  | p :: ps, k => if p.1 = k then compU (squash ps k) p.2 else squash ps k

/-- Apply a plan to the resource store of the named run. -/
def applyPlan (rName : String) (ps : List (String × UpdPair)) (st : PkgState) : PkgState :=
  { st with resources := outerUpd rName (innerApplyAll ps) st.resources }

/-- The keys of the named run's resource store (which resource files
exist). -/
def keysAt (st : PkgState) (run_name : String) : List String :=
  (resStoreOf st run_name).map (fun e => e.1)

/-- The plan of a single target: its error, and its resource write if any
(computed from the two run-configuration views and the resource keys). -/
def planTarget (cfgV cfgR : Option RunConfig) (keys : List String) (t : Target) :
    Option Err × Option (String × UpdPair) :=
  match (if t.disabled.isSome then (pLoadVar cfgV t.name).map Option.some
         else .ok Option.none) with
  | .error e => ⟨some e, Option.none⟩
  | .ok _ =>
    if t.type = "resource" then
      match pResolveRes cfgR t.name with
      | .error e => ⟨some e, Option.none⟩
      | .ok ref =>
        if ref ∈ keys then ⟨none, some (ref, ⟨t.data, t.schema⟩)⟩
        else ⟨some .notFound, Option.none⟩
    else if t.type = "value" then
      match pLoadVar cfgV t.name with
      | .error e => ⟨some e, Option.none⟩
      | .ok _ => ⟨none, Option.none⟩
    else ⟨some .notImplemented, Option.none⟩

/-- The plan of a target list: error of the first failing target, and the
writes of the targets before it. -/
def planTargets (cfgV cfgR : Option RunConfig) (keys : List String) :
    List Target → Option Err × List (String × UpdPair)
  | [] => ⟨none, []⟩
  | t :: ts =>
    match planTarget cfgV cfgR keys t with
    | ⟨some e, w⟩ => ⟨some e, w.toList⟩
    | ⟨none, w⟩ =>
      match planTargets cfgV cfgR keys ts with
      | ⟨e2, ws⟩ => ⟨e2, w.toList ++ ws⟩

/-- The plan of a rule list. -/
def planRules (cfgV cfgR : Option RunConfig) (keys : List String) (vn : String) :
    List Rule → Option Err × List (String × UpdPair)
  | [] => ⟨none, []⟩
  | r :: rs =>
    if r.type = "value" then
      match pLoadVarValue cfgV vn with
      | .error e => ⟨some e, []⟩
      | .ok v =>
        if v ∈ r.values then
          match planTargets cfgV cfgR keys r.targets with
          | ⟨some e, ws⟩ => ⟨some e, ws⟩
          | ⟨none, ws⟩ =>
            match planRules cfgV cfgR keys vn rs with
            | ⟨e2, ws2⟩ => ⟨e2, ws ++ ws2⟩
        else planRules cfgV cfgR keys vn rs
    else ⟨some .notImplemented, []⟩

/-- Well-formedness of the persisted resource stores, as the data model's
invariants require (spec section 3: names are unique): the outer store has
no duplicate run entries and the named run's resource files have distinct
names. -/
def WFState (st : PkgState) (run_name : String) : Prop :=
  (st.resources.map (fun e => e.1)).Nodup ∧ (keysAt st run_name).Nodup

/-- The triggered rule of claim C5's witness: a `resource`-target rewriting
`r`'s data and schema, then a `value`-target. -/
def c5Rule : Rule :=
  { type := "value", values := [.str "off"],
    targets :=
      [{ name := "b", type := "resource", value := none,
         metaschema := none, disabled := none,
         schema := some (.str "s2"), data := some (.raw (.int 9)) },
       { name := "threshold", type := "value", value := some (.int 7),
         metaschema := none, disabled := some true,
         schema := none, data := none }] }

/-- The relationship of claim C5's witness. -/
def c5Rel : Relationship :=
  { source := "mode", rules := [c5Rule] }

/-- Package state for claim C5's witness: `mode = "off"` matches the
declared trigger of its relationship (one `value`-target plus one
`resource`-target rewriting `r`'s data). -/
def c5State : PkgState :=
  { emptyState with
    algorithms := ["alg"], runs := ["alg.a.run"],
    relFiles := [("alg", [c5Rel])],
    runDirs := ["alg.a.run"],
    runConfigs := [{ name := "alg.a.run", title := "t", profile := "opends-run",
                     algorithm := "alg", container := "c",
                     inputs := [scalarVar "mode" (.str "off"),
                                scalarVar "threshold" (.int 5),
                                { name := "b", value := none, disabled := none,
                                  metaschema := none, resource := some "r" }],
                     outputs := [] }],
    resources := [("alg.a.run",
      [("r", { profile := "tabular-data-resource", schema := .str "s1",
               data := .raw (.int 0) })])],
    cliConfig := some "alg.a.run" }

/-! ### Claim theorems -/

/-- C1: with the relationship `{source: "mode", rules:[{type:"value",
values:["off"], targets:[{name:"threshold", type:"value", disabled:true}]}]}`
and `mode = "off"`, `execute_relationship` finishes without error but leaves
the persisted run configuration completely unchanged: the `disabled: true`
mutation is applied to a transient loaded copy of `threshold` that is never
written back, so `threshold` keeps `disabled = false` (its value is also
unchanged).  This refutes the claim that the persisted `threshold.disabled`
becomes `true`. -/
theorem c1_disabled_mutation_not_persisted :
    execute_relationship c1State "alg.a.run" "mode" = ⟨none, c1State⟩ ∧
    load_variable (execute_relationship c1State "alg.a.run" "mode").state
        "alg.a.run" "threshold" =
      .ok { name := "threshold", value := some (.int 5), disabled := some false,
            metaschema := none, resource := none } := by
  decide

/-- C2: with a triggered rule whose first target rewrites resource `r`'s data
and whose second target references the nonexistent variable `ghost`, the
propagation fails with `NotFoundError`, but the failed state retains the
first target's resource write (`r`'s data is now `1`): the persisted state is
not identical to the state before the operation. -/
theorem c2_first_target_write_retained_on_failure :
    execute_relationship c2State "alg.a.run" "mode" =
      ⟨some .notFound, c2StateAfter⟩ ∧
    c2StateAfter ≠ c2State := by
  decide

/-- C3: when no relationship in the algorithm's relationships file has the
mutated variable as its `source`, `find` yields `None` and the unguarded
`relationship["rules"]` subscript raises a `TypeError`: the operation is an
error, not the no-op the spec requires (the state is left unchanged only
because the crash happens before any write). -/
theorem c3_missing_relationship_raises :
    execute_relationship c3State "alg.a.run" "mode" = ⟨some .typeError, c3State⟩ := by
  decide

/-- C4: setting the nullable `number`-typed variable `x` to `42` — a value of
the declared type — is rejected with the type-mismatch error and nothing is
written, because `type_map` maps `"number"` to the union object
`float | int`, and Python's `type(value) != (float | int)` is true for every
value.  This refutes the claim that type-correct scalar values are
accepted. -/
theorem c4_number_value_always_rejected :
    set c4State "x" "42" = ⟨some .typeMismatch, c4State⟩ ∧
    dumb_str_to_type "42" = .ok (.int 42) ∧
    typeNe (typeMapGet "number") (pyTypeOf (.int 42)) = true := by
  decide

/-- C6: setting a `number`-typed, non-nullable scalar variable to a string
value is rejected with the type-mismatch error before anything is loaded for
writing: the state (hence the persisted run configuration) is unchanged and
propagation is never invoked. -/
theorem c6_string_on_number_rejected
    (st : PkgState) (rn ref raw sv : String) (sig : VarSig)
    (hactive : st.cliConfig = some rn)
    (href : ref.toList.contains '.' = false)
    (hparse : dumb_str_to_type raw = .ok (.str sv))
    (hsig : load_variable_signature st rn ref = .ok sig)
    (htype : sig.type = "number")
    (_hnull : sig.null = false)
    (hprof1 : sig.profile ≠ some "tabular-data-resource")
    (hprof2 : sig.profile ≠ some "parameter-tabular-data-resource") :
    set st ref raw = ⟨some .typeMismatch, st⟩ := by
  have hm : typeMapGet "number" = PyTypeObj.unionNum := by decide
  have href2 : '.' ∉ ref.data := by simpa [String.toList] using href
  simp [set, hactive, hparse, href2, hsig, htype, hm, typeNe, hprof1, hprof2]

/-- Witness for C6 at a concrete input: `opends set y hello` on a
non-nullable `number`-typed variable `y`. -/
theorem c6_string_on_number_rejected_witness :
    set c6State "y" "hello" = ⟨some .typeMismatch, c6State⟩ :=
  c6_string_on_number_rejected c6State "alg.a.run" "y" "hello" "hello"
    { name := "y", type := "number", null := false, enum := [], profile := none,
      defaultFields := { name := "y", value := some (.int 1), disabled := none,
                         metaschema := none, resource := none } }
    rfl (by decide) (by decide) (by decide) rfl rfl (by decide) (by decide)

/-- C7: `init` with a well-formed run name whose prefix algorithm is not
declared fails with the unknown-algorithm error and changes nothing (in
particular the run directory is not created); `init` with a valid name whose
run directory already exists fails with the already-exists error and changes
nothing. -/
theorem c7_init_lifecycle_gating (st : PkgState) (name : String) :
    (pyRunNameMatch name = true → get_algorithm_name name ∉ st.algorithms →
      init st (some name) = ⟨some .unknownAlgorithm, st⟩) ∧
    (pyRunNameMatch name = true → get_algorithm_name name ∈ st.algorithms →
      (name ++ ".run") ∈ st.runDirs →
      init st (some name) = ⟨some .alreadyExists, st⟩) := by
  constructor
  · intro h1 h2
    simp [init, get_full_run_name, h1, h2]
  · intro h1 h2 h3
    simp [init, get_full_run_name, h1, h2, h3]

/-- Witness for C7 at concrete inputs: `ghost` is not a declared algorithm;
`algo.x.run` already exists. -/
theorem c7_init_lifecycle_gating_witness :
    init c7State (some "ghost.x") = ⟨some .unknownAlgorithm, c7State⟩ ∧
    init c7State (some "algo.x") = ⟨some .alreadyExists, c7State⟩ :=
  ⟨(c7_init_lifecycle_gating c7State "ghost.x").1 (by decide) (by decide),
   (c7_init_lifecycle_gating c7State "algo.x").2 (by decide) (by decide) (by decide)⟩

/-- C8 counterexample: the run name `"algo.x\n"` (one trailing newline) is
accepted by the CLI's validation — Python's `$` also matches just before a
final newline — although it does not match the spec's regular expression
`^[a-zA-Z0-9_]+\.[a-zA-Z0-9_]+$` read strictly.  So acceptance is not
equivalent to (strict regex match ∧ declared prefix). -/
theorem c8_newline_name_counterexample :
    ¬ ((exceptOk (get_full_run_name c8State (some "algo.x\n")) = true) ↔
       (runNameRegexStrict "algo.x\n" = true ∧
        get_algorithm_name "algo.x\n" ∈ c8State.algorithms)) := by
  decide

/-- C8 (amended): an explicitly supplied run name is accepted by
`get_full_run_name` iff it matches the pattern under Python `re.match`
semantics — i.e. the strict regex after removing at most one trailing
newline — and the prefix before the first dot is a declared algorithm of the
package. -/
theorem c8_run_name_validation_iff (st : PkgState) (name : String) :
    exceptOk (get_full_run_name st (some name)) = true ↔
      (pyRunNameMatch name = true ∧ get_algorithm_name name ∈ st.algorithms) := by
  cases hb : pyRunNameMatch name
  · simp [get_full_run_name, hb, exceptOk]
  · by_cases hm : get_algorithm_name name ∈ st.algorithms
    · simp [get_full_run_name, hb, hm, exceptOk]
    · simp [get_full_run_name, hb, hm, exceptOk]

/-- C9: the raw value `"foo bar"` does not parse as a single Python
expression, so `ast.literal_eval` raises `SyntaxError`; the helper's
`except ValueError` clause does not catch it, and the `set` command
terminates with the uncaught exception (before reading or writing any run
state). -/
theorem c9_syntax_error_uncaught :
    dumb_str_to_type "foo bar" = .error .synError ∧
    set c9State "x" "foo bar" = ⟨some .synError, c9State⟩ := by
  decide

/-- C10: `set_run` with a validated run name whose run directory does not
exist leaves the whole package state — in particular the active-run
configuration file — unchanged (the command prints a message but neither
exits with an error nor writes). -/
theorem c10_set_run_missing_dir_noop (st : PkgState) (name : String)
    (h1 : pyRunNameMatch name = true)
    (h2 : get_algorithm_name name ∈ st.algorithms)
    (h3 : (name ++ ".run") ∉ st.runDirs) :
    set_run st (some name) = ⟨none, st⟩ := by
  simp [set_run, get_full_run_name, h1, h2, h3]

/-- Witness for C10 at a concrete input: `algo.new` is valid but
`algo.new.run` does not exist; the previously active run stays recorded. -/
theorem c10_set_run_missing_dir_noop_witness :
    set_run c10State (some "algo.new") = ⟨none, c10State⟩ :=
  c10_set_run_missing_dir_noop c10State "algo.new" (by decide) (by decide) (by decide)

/-! ### Algebra of update plans (towards C5, idempotence of propagation) -/

/-- First-writer-biased choice is idempotent. -/
theorem oOr_self {α : Type} (a : Option α) : oOr a a = a := by
  cases a <;> rfl

/-- Choice then default equals nested defaults. -/
theorem oOr_getD {α : Type} (a b : Option α) (c : α) :
    (oOr a b).getD c = a.getD (b.getD c) := by
  cases a <;> rfl

/-- The empty update pair changes nothing. -/
theorem applyU_id (r : Resource) : applyU ⟨Option.none, Option.none⟩ r = r := rfl

/-- Updates compose (later update outermost). -/
theorem applyU_applyU (u2 u1 : UpdPair) (r : Resource) :
    applyU u2 (applyU u1 r) = applyU (compU u2 u1) r := by
  simp [applyU, compU, oOr_getD]

/-- An update pair is idempotent under composition. -/
theorem compU_self (u : UpdPair) : compU u u = u := by
  cases u
  simp [compU, oOr_self]

/-- A plan is a per-entry map by the squashed update of the entry's key. -/
theorem innerApplyAll_eq_map (ps : List (String × UpdPair)) (store : ResStore) :
    innerApplyAll ps store = store.map (fun e => (e.1, applyU (squash ps e.1) e.2)) := by
  induction ps generalizing store with
  | nil =>
    show store = store.map (fun e => (e.1, applyU (squash [] e.1) e.2))
    have h : (fun e : String × Resource => (e.1, applyU (squash [] e.1) e.2)) = id := by
      funext e
      show (e.1, applyU ⟨Option.none, Option.none⟩ e.2) = e
      rw [applyU_id]
    rw [h, List.map_id]
  | cons p ps ih =>
    show innerApplyAll ps (innerApply p.1 p.2 store) = _
    rw [ih, innerApply, List.map_map]
    have h : ((fun e : String × Resource => (e.1, applyU (squash ps e.1) e.2)) ∘
        fun e => if e.1 = p.1 then (e.1, applyU p.2 e.2) else e) =
        fun e : String × Resource => (e.1, applyU (squash (p :: ps) e.1) e.2) := by
      funext e
      show _ = (e.1, applyU (if p.1 = e.1 then compU (squash ps e.1) p.2 else squash ps e.1) e.2)
      by_cases he : e.1 = p.1
      · rw [Function.comp_apply, if_pos he, if_pos he.symm]
        show (e.1, applyU (squash ps e.1) (applyU p.2 e.2)) = _
        rw [applyU_applyU]
      · rw [Function.comp_apply, if_neg he, if_neg (fun hx => he hx.symm)]
    rw [h]

/-- Applying the same plan twice equals applying it once (last writer
wins). -/
theorem innerApplyAll_idem (ps : List (String × UpdPair)) (store : ResStore) :
    innerApplyAll ps (innerApplyAll ps store) = innerApplyAll ps store := by
  have h : ((fun e : String × Resource => (e.1, applyU (squash ps e.1) e.2)) ∘
      fun e => (e.1, applyU (squash ps e.1) e.2)) =
      fun e : String × Resource => (e.1, applyU (squash ps e.1) e.2) := by
    funext e
    show (e.1, applyU (squash ps e.1) (applyU (squash ps e.1) e.2)) = _
    rw [applyU_applyU, compU_self]
  rw [innerApplyAll_eq_map ps (innerApplyAll ps store), innerApplyAll_eq_map ps store,
    List.map_map, h]

/-- Plans concatenate by sequential application. -/
theorem innerApplyAll_append (ps1 ps2 : List (String × UpdPair)) (store : ResStore) :
    innerApplyAll (ps1 ++ ps2) store = innerApplyAll ps2 (innerApplyAll ps1 store) := by
  simp [innerApplyAll, List.foldl_append]

/-- Plans do not change which resource files exist. -/
theorem innerApplyAll_keys (ps : List (String × UpdPair)) (store : ResStore) :
    (innerApplyAll ps store).map (fun e => e.1) = store.map (fun e => e.1) := by
  rw [innerApplyAll_eq_map, List.map_map]
  rfl

/-- `outerUpd` does not change the run entries. -/
theorem outerUpd_keys (rn : String) (f : ResStore → ResStore)
    (rs : List (String × ResStore)) :
    (outerUpd rn f rs).map (fun e => e.1) = rs.map (fun e => e.1) := by
  rw [outerUpd, List.map_map]
  have h : ((fun e : String × ResStore => e.1) ∘
      fun e => if e.1 = rn then (e.1, f e.2) else e) =
      fun e : String × ResStore => e.1 := by
    funext e
    obtain ⟨k, v⟩ := e
    by_cases he : k = rn
    · subst he
      simp
    · simp [he]
  rw [h]

/-- Two `outerUpd`s at the same run compose. -/
theorem outerUpd_comp (rn : String) (f g : ResStore → ResStore)
    (rs : List (String × ResStore)) :
    outerUpd rn f (outerUpd rn g rs) = outerUpd rn (fun s => f (g s)) rs := by
  rw [outerUpd, outerUpd, outerUpd, List.map_map]
  have h : ((fun e : String × ResStore => if e.1 = rn then (e.1, f e.2) else e) ∘
      fun e => if e.1 = rn then (e.1, g e.2) else e) =
      fun e : String × ResStore => if e.1 = rn then (e.1, f (g e.2)) else e := by
    funext e
    by_cases he : e.1 = rn <;> simp [he]
  rw [h]

/-- `outerUpd` respects pointwise-equal store functions. -/
theorem outerUpd_congr (rn : String) (f g : ResStore → ResStore)
    (rs : List (String × ResStore)) (h : ∀ s, f s = g s) :
    outerUpd rn f rs = outerUpd rn g rs := by
  have hfg : f = g := funext h
  rw [hfg]

/-- `outerUpd` with the identity is the identity. -/
theorem outerUpd_id (rn : String) (rs : List (String × ResStore)) :
    outerUpd rn (fun s => s) rs = rs := by
  rw [outerUpd]
  have h : (fun e : String × ResStore => if e.1 = rn then (e.1, e.2) else e) = id := by
    funext e
    obtain ⟨k, v⟩ := e
    by_cases he : k = rn
    · subst he
      simp
    · simp [he]
  rw [h, List.map_id]

/-- Reading the updated run's store after `outerUpd`. -/
theorem alGet_outerUpd (rn : String) (f : ResStore → ResStore)
    (rs : List (String × ResStore)) :
    alGet (outerUpd rn f rs) rn = (alGet rs rn).map f := by
  induction rs with
  | nil => rfl
  | cons e rest ih =>
    obtain ⟨k, v⟩ := e
    by_cases he : k = rn
    · simp only [outerUpd, List.map_cons, alGet]
      rw [if_pos (show ((k, v) : String × ResStore).1 = rn from he)]
      rw [List.find?_cons_of_pos _ (by simp [he]), List.find?_cons_of_pos _ (by simp [he])]
      rfl
    · simp only [outerUpd, List.map_cons, alGet]
      rw [if_neg (show ¬((k, v) : String × ResStore).1 = rn from he)]
      rw [List.find?_cons_of_neg _ (by simp [he]), List.find?_cons_of_neg _ (by simp [he])]
      exact ih

/-- The empty plan changes nothing. -/
theorem applyPlan_nil (rName : String) (st : PkgState) : applyPlan rName [] st = st := by
  show { st with resources := outerUpd rName (innerApplyAll []) st.resources } = st
  rw [show innerApplyAll ([] : List (String × UpdPair)) = fun s => s from rfl, outerUpd_id]

/-- Two states differing only in a proven-equal `resources` field are
equal. -/
theorem stateRes (st : PkgState) (X Y : List (String × ResStore)) (h : X = Y) :
    ({ st with resources := X } : PkgState) = { st with resources := Y } := by
  rw [h]

/-- Concatenated plans apply sequentially. -/
theorem applyPlan_append (rName : String) (ps1 ps2 : List (String × UpdPair))
    (st : PkgState) :
    applyPlan rName (ps1 ++ ps2) st = applyPlan rName ps2 (applyPlan rName ps1 st) := by
  have h1 : outerUpd rName (innerApplyAll (ps1 ++ ps2)) st.resources =
      outerUpd rName (fun s => innerApplyAll ps2 (innerApplyAll ps1 s)) st.resources :=
    outerUpd_congr _ _ _ _ (fun s => innerApplyAll_append ps1 ps2 s)
  have h2 : outerUpd rName (innerApplyAll ps2)
        (outerUpd rName (innerApplyAll ps1) st.resources) =
      outerUpd rName (fun s => innerApplyAll ps2 (innerApplyAll ps1 s)) st.resources :=
    outerUpd_comp rName _ _ st.resources
  exact stateRes st _ _ (h1.trans h2.symm)

/-- A plan is idempotent on states. -/
theorem applyPlan_idem (rName : String) (ps : List (String × UpdPair)) (st : PkgState) :
    applyPlan rName ps (applyPlan rName ps st) = applyPlan rName ps st := by
  have h1 : outerUpd rName (innerApplyAll ps)
        (outerUpd rName (innerApplyAll ps) st.resources) =
      outerUpd rName (fun s => innerApplyAll ps (innerApplyAll ps s)) st.resources :=
    outerUpd_comp rName _ _ st.resources
  have h2 : outerUpd rName (fun s => innerApplyAll ps (innerApplyAll ps s)) st.resources =
      outerUpd rName (innerApplyAll ps) st.resources :=
    outerUpd_congr _ _ _ _ (fun s => innerApplyAll_idem ps s)
  exact stateRes st _ _ (h1.trans h2)

/-- Plans do not touch the run configurations. -/
theorem load_run_configuration_applyPlan (rName : String) (ps : List (String × UpdPair))
    (st : PkgState) (n : String) :
    load_run_configuration (applyPlan rName ps st) n = load_run_configuration st n := rfl

/-- Plans preserve which resource files exist. -/
theorem keysAt_applyPlan (rName : String) (ps : List (String × UpdPair)) (st : PkgState) :
    keysAt (applyPlan rName ps st) rName = keysAt st rName := by
  show ((alGet (outerUpd rName (innerApplyAll ps) st.resources) rName).getD []).map _ =
    ((alGet st.resources rName).getD []).map _
  rw [alGet_outerUpd]
  cases h : alGet st.resources rName with
  | none => rfl
  | some s => simpa using innerApplyAll_keys ps s

/-- Plans preserve store well-formedness. -/
theorem wf_applyPlan (rName : String) (ps : List (String × UpdPair)) (st : PkgState)
    (h : WFState st rName) : WFState (applyPlan rName ps st) rName := by
  constructor
  · show ((outerUpd rName (innerApplyAll ps) st.resources).map _).Nodup
    rw [outerUpd_keys]
    exact h.1
  · rw [keysAt_applyPlan]
    exact h.2

/-- A keyed conditional map is the identity when no element satisfies the
condition. -/
theorem map_if_neg_id {α : Type} (l : List α) (p : α → Prop) [DecidablePred p]
    (f : α → α) (h : ∀ a ∈ l, ¬ p a) :
    l.map (fun a => if p a then f a else a) = l := by
  induction l with
  | nil => rfl
  | cons a rest ih =>
    simp only [List.map_cons, if_neg (h a (List.mem_cons_self a rest))]
    rw [ih (fun a' ha' => h a' (List.mem_cons_of_mem a ha'))]

/-- On a duplicate-free store, replacing the found resource by its updated
value is the same as mapping the update over the store. -/
theorem inner_write_eq (store : ResStore) (ref : String) (r0 : Resource) (u : UpdPair)
    (hnd : (store.map (fun e => e.1)).Nodup)
    (hfind : store.find? (fun e => e.1 = ref) = some (ref, r0)) :
    resWriteInner ref (applyU u r0) store = innerApply ref u store := by
  induction store with
  | nil => simp [List.find?] at hfind
  | cons e rest ih =>
    by_cases he : e.1 = ref
    · have he2 : e = (ref, r0) := by
        rw [List.find?_cons_of_pos _ (by simp [he])] at hfind
        exact Option.some.inj hfind
      have hno : ∀ e' ∈ rest, ¬ e'.1 = ref := by
        intro e' he'
        have hmem : e'.1 ∈ rest.map (fun e => e.1) := List.mem_map_of_mem _ he'
        have hhead : e.1 ∉ rest.map (fun e => e.1) := (List.nodup_cons.mp hnd).1
        intro hx
        exact hhead (by rw [he, ← hx]; exact hmem)
      subst he2
      simp only [resWriteInner, innerApply, List.map_cons, if_pos rfl]
      rw [map_if_neg_id rest (fun e => e.1 = ref) _ hno,
        map_if_neg_id rest (fun e => e.1 = ref) _ hno]
    · have hfind' : rest.find? (fun e => e.1 = ref) = some (ref, r0) := by
        rwa [List.find?_cons_of_neg _ (by simp [he])] at hfind
      have hnd' : (rest.map (fun e => e.1)).Nodup := (List.nodup_cons.mp hnd).2
      have ih2 := ih hnd' hfind'
      simp only [resWriteInner, innerApply, List.map_cons, if_neg he] at ih2 ⊢
      rw [ih2]

/-- `outerUpd` only cares about the function's value on the (unique) store
of the updated run. -/
theorem outerUpd_congr_first (rn : String) (f g : ResStore → ResStore)
    (rs : List (String × ResStore))
    (hnd : (rs.map (fun e => e.1)).Nodup)
    (h : f ((alGet rs rn).getD []) = g ((alGet rs rn).getD [])) :
    outerUpd rn f rs = outerUpd rn g rs := by
  induction rs with
  | nil => rfl
  | cons e rest ih =>
    by_cases he : e.1 = rn
    · have hget : alGet (e :: rest) rn = some e.2 := by
        simp only [alGet]
        rw [List.find?_cons_of_pos _ (by simp [he])]
        rfl
      rw [hget] at h
      have hno : ∀ e' ∈ rest, ¬ e'.1 = rn := by
        intro e' he'
        have hmem : e'.1 ∈ rest.map (fun e => e.1) := List.mem_map_of_mem _ he'
        have hhead : e.1 ∉ rest.map (fun e => e.1) := (List.nodup_cons.mp hnd).1
        intro hx
        exact hhead (by rw [he, ← hx]; exact hmem)
      simp only [outerUpd, List.map_cons, if_pos he]
      rw [show (Option.some e.2).getD [] = e.2 from rfl] at h
      rw [h, map_if_neg_id rest (fun e => e.1 = rn) _ hno,
        map_if_neg_id rest (fun e => e.1 = rn) _ hno]
    · have hget : alGet (e :: rest) rn = alGet rest rn := by
        simp only [alGet]
        rw [List.find?_cons_of_neg _ (by simp [he])]
      rw [hget] at h
      have ih2 := ih (List.nodup_cons.mp hnd).2 h
      simp only [outerUpd, List.map_cons, if_neg he] at ih2 ⊢
      rw [ih2]

/-- A `write_resource` of a loaded-and-updated resource equals applying the
singleton plan, on a well-formed store. -/
theorem write_resource_eq_plan (st : PkgState) (rName ref : String) (r0 : Resource)
    (u : UpdPair) (hwf : WFState st rName)
    (hfind : (resStoreOf st rName).find? (fun e => e.1 = ref) = some (ref, r0)) :
    write_resource st rName ref (applyU u r0) = applyPlan rName [(ref, u)] st := by
  have h1 : innerApplyAll [(ref, u)] = innerApply ref u := rfl
  have h2 : outerUpd rName (resWriteInner ref (applyU u r0)) st.resources =
      outerUpd rName (innerApply ref u) st.resources :=
    outerUpd_congr_first rName _ _ st.resources hwf.1
      (inner_write_eq (resStoreOf st rName) ref r0 u hwf.2 hfind)
  show ({ st with resources := outerUpd rName (resWriteInner ref (applyU u r0)) st.resources } : PkgState) =
    { st with resources := outerUpd rName (innerApplyAll [(ref, u)]) st.resources }
  rw [h1, h2]

/-- `find?` over a replace-by-name map: when some entry matches, the first
match becomes the replacement. -/
theorem find?_map_replace (l : List RunConfig) (run : RunConfig) :
    (l.map (fun c => if c.name = run.name then run else c)).find?
        (fun c => c.name = run.name) =
      if (l.find? (fun c => c.name = run.name)).isSome then some run else none := by
  induction l with
  | nil => rfl
  | cons c rest ih =>
    by_cases hc : c.name = run.name
    · simp only [List.map_cons, if_pos hc]
      rw [List.find?_cons_of_pos _ (by simp), List.find?_cons_of_pos _ (by simp [hc])]
      rfl
    · simp only [List.map_cons, if_neg hc]
      rw [List.find?_cons_of_neg _ (by simp [hc]), List.find?_cons_of_neg _ (by simp [hc])]
      exact ih

/-- A loaded run configuration's `name` is the name it was loaded under. -/
theorem load_run_configuration_name (st : PkgState) (rn : String) (run : RunConfig)
    (h : load_run_configuration st rn = some run) : run.name = rn := by
  have := List.find?_some h
  simpa using this

/-- After writing a run configuration, loading it under its name yields that
configuration, provided a configuration with that name already existed. -/
theorem load_write_run_configuration (st : PkgState) (run : RunConfig)
    (hsome : (st.runConfigs.find? (fun c => c.name = run.name)).isSome = true) :
    load_run_configuration (write_run_configuration st run) run.name = some run := by
  have hany : st.runConfigs.any (fun c => decide (c.name = run.name)) = true := by
    rcases Option.isSome_iff_exists.mp hsome with ⟨c, hc⟩
    have hmem := List.mem_of_find?_eq_some hc
    have hpc := List.find?_some hc
    rw [List.any_eq_true]
    exact ⟨c, hmem, hpc⟩
  show (writeCfgList st.runConfigs run).find? (fun c => c.name = run.name) = some run
  rw [writeCfgList, if_pos hany, find?_map_replace, if_pos hsome]

/-- Re-writing the same run configuration is a no-op. -/
theorem writeCfgList_idem (l : List RunConfig) (run : RunConfig) :
    writeCfgList (writeCfgList l run) run = writeCfgList l run := by
  by_cases hany : l.any (fun c => decide (c.name = run.name)) = true
  · have hw : writeCfgList l run = l.map (fun c => if c.name = run.name then run else c) := by
      rw [writeCfgList, if_pos hany]
    have hany2 : (l.map (fun c => if c.name = run.name then run else c)).any
        (fun c => decide (c.name = run.name)) = true := by
      rw [List.any_eq_true] at hany ⊢
      rcases hany with ⟨c, hc, hpc⟩
      refine ⟨if c.name = run.name then run else c, List.mem_map_of_mem _ hc, ?_⟩
      rw [if_pos (of_decide_eq_true hpc)]
      simp
    have h : ((fun c : RunConfig => if c.name = run.name then run else c) ∘
        fun c => if c.name = run.name then run else c) =
        fun c : RunConfig => if c.name = run.name then run else c := by
      funext c
      by_cases hc : c.name = run.name <;> simp [hc]
    rw [hw, writeCfgList, if_pos hany2, List.map_map, h]
  · have hw : writeCfgList l run = l ++ [run] := by
      rw [writeCfgList, if_neg hany]
    have hany2 : ((l ++ [run]).any (fun c => decide (c.name = run.name))) = true := by
      rw [List.any_eq_true]
      exact ⟨run, by simp, by simp⟩
    have hall : ∀ c ∈ l, ¬ c.name = run.name := by
      intro c hc hx
      exact hany (by rw [List.any_eq_true]; exact ⟨c, hc, by simp [hx]⟩)
    rw [hw, writeCfgList, if_pos hany2, List.map_append,
      map_if_neg_id l (fun c => c.name = run.name) _ hall]
    simp

/-- Writing the same run configuration twice equals writing it once. -/
theorem write_run_configuration_idem (st : PkgState) (run : RunConfig) :
    write_run_configuration (write_run_configuration st run) run =
      write_run_configuration st run := by
  show ({ st with runConfigs := writeCfgList (writeCfgList st.runConfigs run) run } : PkgState) =
    { st with runConfigs := writeCfgList st.runConfigs run }
  rw [writeCfgList_idem]

/-- Plans and configuration writes act on different fields, hence
commute. -/
theorem applyPlan_write_comm (rName : String) (ps : List (String × UpdPair))
    (st : PkgState) (run : RunConfig) :
    applyPlan rName ps (write_run_configuration st run) =
      write_run_configuration (applyPlan rName ps st) run := rfl

/-- One target application equals its plan applied to the state. -/
theorem applyTarget_spec (rn rName : String) (t : Target) (st : PkgState)
    (hwf : WFState st rName) :
    applyTarget rn rName t st =
      ⟨(planTarget (load_run_configuration st rn) (load_run_configuration st rName)
          (keysAt st rName) t).1,
        applyPlan rName (planTarget (load_run_configuration st rn)
          (load_run_configuration st rName) (keysAt st rName) t).2.toList st⟩ := by
  unfold applyTarget planTarget load_variable
  cases hpre : (if t.disabled.isSome then
      (pLoadVar (load_run_configuration st rn) t.name).map Option.some
    else Except.ok Option.none) with
  | error e => simp [applyPlan_nil]
  | ok dv =>
    by_cases hres : t.type = "resource"
    · simp only [if_pos hres]
      unfold load_resource_by_variable
      cases hr : pResolveRes (load_run_configuration st rName) t.name with
      | error e => simp [applyPlan_nil]
      | ok ref =>
        dsimp only
        cases hf : (resStoreOf st rName).find? (fun e => e.1 = ref) with
        | none =>
          have hmem : ref ∉ keysAt st rName := by
            intro hm
            rcases List.mem_map.mp hm with ⟨e, he, hke⟩
            rw [List.find?_eq_none] at hf
            exact hf e he (by simp [hke])
          simp [hmem, applyPlan_nil]
        | some pr =>
          obtain ⟨k, r0⟩ := pr
          have hk : k = ref := by simpa using List.find?_some hf
          have hf2 : (resStoreOf st rName).find? (fun e => e.1 = ref) = some (ref, r0) := by
            rw [hf, hk]
          have hmem : ref ∈ keysAt st rName := by
            have hm := List.mem_of_find?_eq_some hf2
            exact List.mem_map.mpr ⟨(ref, r0), hm, rfl⟩
          simp only [if_pos hmem]
          have hw := write_resource_eq_plan st rName ref r0 ⟨t.data, t.schema⟩ hwf hf2
          exact congrArg (Outcome.mk none) hw
    · by_cases hval : t.type = "value"
      · simp only [if_neg hres, if_pos hval]
        cases hv : pLoadVar (load_run_configuration st rn) t.name with
        | error e => simp [applyPlan_nil]
        | ok tv => simp [applyPlan_nil]
      · simp only [if_neg hres, if_neg hval]
        simp [applyPlan_nil]

/-- A target list application equals its plan applied to the state. -/
theorem processTargets_spec (rn rName : String) (ts : List Target) (st : PkgState)
    (hwf : WFState st rName) :
    processTargets rn rName ts st =
      ⟨(planTargets (load_run_configuration st rn) (load_run_configuration st rName)
          (keysAt st rName) ts).1,
        applyPlan rName (planTargets (load_run_configuration st rn)
          (load_run_configuration st rName) (keysAt st rName) ts).2 st⟩ := by
  induction ts generalizing st with
  | nil =>
    show (⟨none, st⟩ : Outcome) = ⟨none, applyPlan rName [] st⟩
    rw [applyPlan_nil]
  | cons t ts ih =>
    show (match applyTarget rn rName t st with
      | ⟨some e, st'⟩ => (⟨some e, st'⟩ : Outcome)
      | ⟨none, st'⟩ => processTargets rn rName ts st') = _
    rw [applyTarget_spec rn rName t st hwf]
    cases hp : planTarget (load_run_configuration st rn) (load_run_configuration st rName)
        (keysAt st rName) t with
    | mk e1 w =>
      cases e1 with
      | some e =>
        show (⟨some e, applyPlan rName w.toList st⟩ : Outcome) = _
        show _ = (⟨(planTargets (load_run_configuration st rn)
            (load_run_configuration st rName) (keysAt st rName) (t :: ts)).1,
          applyPlan rName (planTargets (load_run_configuration st rn)
            (load_run_configuration st rName) (keysAt st rName) (t :: ts)).2 st⟩ : Outcome)
        rw [show planTargets (load_run_configuration st rn)
            (load_run_configuration st rName) (keysAt st rName) (t :: ts) =
            ⟨some e, w.toList⟩ from by
          show (match planTarget (load_run_configuration st rn)
              (load_run_configuration st rName) (keysAt st rName) t with
            | ⟨some e, w⟩ => (⟨some e, w.toList⟩ : Option Err × List (String × UpdPair))
            | ⟨none, w⟩ =>
              match planTargets (load_run_configuration st rn)
                  (load_run_configuration st rName) (keysAt st rName) ts with
              | ⟨e2, ws⟩ => ⟨e2, w.toList ++ ws⟩) = ⟨some e, w.toList⟩
          rw [hp]]
      | none =>
        have hwf2 := wf_applyPlan rName w.toList st hwf
        show processTargets rn rName ts (applyPlan rName w.toList st) = _
        rw [ih (applyPlan rName w.toList st) hwf2]
        rw [show load_run_configuration (applyPlan rName w.toList st) rn =
          load_run_configuration st rn from rfl]
        rw [show load_run_configuration (applyPlan rName w.toList st) rName =
          load_run_configuration st rName from rfl]
        rw [keysAt_applyPlan rName w.toList st]
        rw [show planTargets (load_run_configuration st rn)
            (load_run_configuration st rName) (keysAt st rName) (t :: ts) =
            ⟨(planTargets (load_run_configuration st rn)
                (load_run_configuration st rName) (keysAt st rName) ts).1,
              w.toList ++ (planTargets (load_run_configuration st rn)
                (load_run_configuration st rName) (keysAt st rName) ts).2⟩ from by
          show (match planTarget (load_run_configuration st rn)
              (load_run_configuration st rName) (keysAt st rName) t with
            | ⟨some e, w⟩ => (⟨some e, w.toList⟩ : Option Err × List (String × UpdPair))
            | ⟨none, w⟩ =>
              match planTargets (load_run_configuration st rn)
                  (load_run_configuration st rName) (keysAt st rName) ts with
              | ⟨e2, ws⟩ => ⟨e2, w.toList ++ ws⟩) = _
          rw [hp]]
        rw [applyPlan_append]

/-- A rule list application equals its plan applied to the state. -/
theorem processRules_spec (rn rName vn : String) (rs : List Rule) (st : PkgState)
    (hwf : WFState st rName) :
    processRules rn rName vn rs st =
      ⟨(planRules (load_run_configuration st rn) (load_run_configuration st rName)
          (keysAt st rName) vn rs).1,
        applyPlan rName (planRules (load_run_configuration st rn)
          (load_run_configuration st rName) (keysAt st rName) vn rs).2 st⟩ := by
  induction rs generalizing st with
  | nil =>
    show (⟨none, st⟩ : Outcome) = ⟨none, applyPlan rName [] st⟩
    rw [applyPlan_nil]
  | cons r rs ih =>
    simp only [processRules]
    rw [show load_variable_value st rn vn =
      pLoadVarValue (load_run_configuration st rn) vn from rfl]
    by_cases hv : r.type = "value"
    · simp only [if_pos hv]
      cases hval : pLoadVarValue (load_run_configuration st rn) vn with
      | error e =>
        rw [show planRules (load_run_configuration st rn)
            (load_run_configuration st rName) (keysAt st rName) vn (r :: rs) =
            ⟨some e, []⟩ from by
          simp only [planRules, if_pos hv, hval]]
        rw [applyPlan_nil]
      | ok v =>
        by_cases hin : v ∈ r.values
        · simp only [if_pos hin]
          rw [processTargets_spec rn rName r.targets st hwf]
          cases hp : planTargets (load_run_configuration st rn)
              (load_run_configuration st rName) (keysAt st rName) r.targets with
          | mk e1 ws =>
            cases e1 with
            | some e =>
              show (⟨some e, applyPlan rName ws st⟩ : Outcome) = _
              rw [show planRules (load_run_configuration st rn)
                  (load_run_configuration st rName) (keysAt st rName) vn (r :: rs) =
                  ⟨some e, ws⟩ from by
                simp only [planRules, if_pos hv, hval, if_pos hin, hp]]
            | none =>
              have hwf2 := wf_applyPlan rName ws st hwf
              show processRules rn rName vn rs (applyPlan rName ws st) = _
              rw [ih (applyPlan rName ws st) hwf2]
              rw [show load_run_configuration (applyPlan rName ws st) rn =
                load_run_configuration st rn from rfl]
              rw [show load_run_configuration (applyPlan rName ws st) rName =
                load_run_configuration st rName from rfl]
              rw [keysAt_applyPlan rName ws st]
              rw [show planRules (load_run_configuration st rn)
                  (load_run_configuration st rName) (keysAt st rName) vn (r :: rs) =
                  ⟨(planRules (load_run_configuration st rn)
                      (load_run_configuration st rName) (keysAt st rName) vn rs).1,
                    ws ++ (planRules (load_run_configuration st rn)
                      (load_run_configuration st rName) (keysAt st rName) vn rs).2⟩ from by
                simp only [planRules, if_pos hv, hval, if_pos hin, hp]]
              rw [applyPlan_append]
        · simp only [if_neg hin]
          rw [ih st hwf]
          rw [show planRules (load_run_configuration st rn)
              (load_run_configuration st rName) (keysAt st rName) vn (r :: rs) =
              planRules (load_run_configuration st rn)
                (load_run_configuration st rName) (keysAt st rName) vn rs from by
            simp only [planRules, if_pos hv, hval, if_neg hin]]
    · simp only [if_neg hv]
      rw [show planRules (load_run_configuration st rn)
          (load_run_configuration st rName) (keysAt st rName) vn (r :: rs) =
          ⟨some .notImplemented, []⟩ from by
        simp only [planRules, if_neg hv]]
      rw [applyPlan_nil]

/-- `execute_relationship` is idempotent on well-formed states: running it a
second time from the state it produced changes nothing more. -/
theorem execute_relationship_idem (st : PkgState) (rn vn : String)
    (hwf : WFState st rn) :
    (execute_relationship (execute_relationship st rn vn).state rn vn).state =
      (execute_relationship st rn vn).state := by
  unfold execute_relationship
  cases h1 : load_run_configuration st rn with
  | none => simp [h1]
  | some run =>
    have hname : run.name = rn := load_run_configuration_name st rn run h1
    cases h2 : alGet st.relFiles (get_algorithm_name rn) with
    | none => simp [h1, h2]
    | some rels =>
      cases h3 : find rels vn with
      | none => simp [h1, h2, h3]
      | some rel =>
        dsimp only
        rw [h3]
        dsimp only
        rw [hname]
        rw [processRules_spec rn rn vn rel.rules st hwf]
        cases hP : planRules (load_run_configuration st rn) (load_run_configuration st rn)
            (keysAt st rn) vn rel.rules with
        | mk E W =>
          cases E with
          | some e =>
            dsimp only
            rw [show load_run_configuration (applyPlan rn W st) rn =
              load_run_configuration st rn from rfl, h1]
            rw [show alGet (applyPlan rn W st).relFiles (get_algorithm_name rn) =
              alGet st.relFiles (get_algorithm_name rn) from rfl, h2]
            dsimp only
            rw [h3]
            dsimp only
            rw [hname]
            rw [processRules_spec rn rn vn rel.rules (applyPlan rn W st)
              (wf_applyPlan rn W st hwf)]
            rw [show load_run_configuration (applyPlan rn W st) rn =
              load_run_configuration st rn from rfl]
            rw [keysAt_applyPlan rn W st]
            rw [hP]
            dsimp only
            rw [applyPlan_idem]
          | none =>
            dsimp only
            have hsome : (st.runConfigs.find? (fun c => c.name = run.name)).isSome = true := by
              rw [hname]
              rw [show (st.runConfigs.find? fun c => c.name = rn) =
                load_run_configuration st rn from rfl, h1]
              rfl
            have h4 : load_run_configuration
                (write_run_configuration (applyPlan rn W st) run) run.name = some run :=
              load_write_run_configuration (applyPlan rn W st) run hsome
            rw [hname] at h4
            rw [h4]
            rw [show alGet (write_run_configuration (applyPlan rn W st) run).relFiles
              (get_algorithm_name rn) = alGet st.relFiles (get_algorithm_name rn) from rfl,
              h2]
            dsimp only
            rw [h3]
            dsimp only
            rw [hname]
            have hwf2 : WFState (write_run_configuration (applyPlan rn W st) run) rn :=
              wf_applyPlan rn W st hwf
            rw [processRules_spec rn rn vn rel.rules
              (write_run_configuration (applyPlan rn W st) run) hwf2]
            rw [show load_run_configuration
              (write_run_configuration (applyPlan rn W st) run) rn = some run from h4]
            rw [show keysAt (write_run_configuration (applyPlan rn W st) run) rn =
              keysAt (applyPlan rn W st) rn from rfl]
            rw [keysAt_applyPlan rn W st]
            rw [h1] at hP
            rw [hP]
            dsimp only
            rw [applyPlan_write_comm, applyPlan_idem, write_run_configuration_idem]

/-- C5: for a starting run state (well-formed per the data model's
uniqueness invariants) in which the source variable's value equals a
declared trigger value of its relationship, invoking `execute_relationship`
twice in succession yields exactly the same final package state (run
configuration and resources) as invoking it once.  This holds because each
propagation pass re-reads the run configuration (which it rewrites
unchanged), and every resource write replaces `data`/`schema` by constants
declared in the rule. -/
theorem c5_propagation_idempotent (st : PkgState) (rn vn : String)
    (hwf : WFState st rn)
    (_htrig : ∃ rels rel rule v,
      alGet st.relFiles (get_algorithm_name rn) = some rels ∧
      find rels vn = some rel ∧ rule ∈ rel.rules ∧ rule.type = "value" ∧
      load_variable_value st rn vn = .ok v ∧ v ∈ rule.values) :
    (execute_relationship (execute_relationship st rn vn).state rn vn).state =
      (execute_relationship st rn vn).state :=
  execute_relationship_idem st rn vn hwf

/-- Witness for C5 at a concrete input: `mode = "off"` triggers its declared
rule in `c5State`. -/
theorem c5_propagation_idempotent_witness :
    (execute_relationship (execute_relationship c5State "alg.a.run" "mode").state
        "alg.a.run" "mode").state =
      (execute_relationship c5State "alg.a.run" "mode").state :=
  c5_propagation_idempotent c5State "alg.a.run" "mode" ⟨by decide, by decide⟩
    ⟨[c5Rel], c5Rel, c5Rule, .str "off", by decide, by decide, by decide, by decide,
      by decide, by decide⟩

end ODS
